import Mathlib

/-!
Verification development for the derpkg unified package-manager front-end.

The Python source (src/derpkg.py and src/pm/*.py) is shallowly embedded:
pure string processing becomes Lean functions over `String`/`List Char`,
and the side-effecting dispatcher is modelled as a function from an
environment (availability probe results, interactive answers, subprocess
exit codes and outputs) to an event trace (prompts shown, subprocesses
spawned with their full argv, error and warning reports).

String operations mirror Python semantics: `split(sep)` keeps empty
fields, `strip()` removes surrounding whitespace, `lower()` maps ASCII
letters.  They are implemented by structural recursion on `String.data`
so that every theorem about concrete inputs evaluates inside the kernel.
-/

namespace Derpkg

/-! ## Python string primitives -/

/-- Python `str.split(sep)` for a one-character separator, on char lists:
splits at every occurrence and keeps empty fields, never returning an
empty list. -/
def pySplitChars (sep : Char) : List Char → List (List Char)
  | [] => [[]]
  | c :: rest =>
    let r := pySplitChars sep rest
    if c = sep then [] :: r
    else
      match r with
      | [] => [[c]]
      | x :: xs => (c :: x) :: xs

/-- Python `str.split(sep)` for a one-character separator, on strings. -/
def pySplit (sep : Char) (s : String) : List String :=
  (pySplitChars sep s.data).map (fun l => ⟨l⟩)

/-- Splits a char list at the first occurrence of the separator, if any. -/
def pySplitFirstChars (sep : Char) : List Char → Option (List Char × List Char)
  | [] => none
  | c :: rest =>
    if c = sep then some ([], rest)
    else
      match pySplitFirstChars sep rest with
      | none => none
      | some (a, b) => some (c :: a, b)

/-- Python `str.split(sep, 1)`: at most one split, at the first separator. -/
def pySplitOnce (sep : Char) (s : String) : List String :=
  match pySplitFirstChars sep s.data with
  | none => [s]
  | some (a, b) => [⟨a⟩, ⟨b⟩]

/-- Python `str.strip()` (whitespace as recognised by `Char.isWhitespace`;
the rarer Python whitespace code points do not occur in the repository's
inputs). -/
def pyStrip (s : String) : String :=
  ⟨(((s.data.dropWhile Char.isWhitespace).reverse.dropWhile Char.isWhitespace).reverse)⟩

/-- Python `str.lower()` (ASCII case mapping). -/
def pyLower (s : String) : String :=
  ⟨s.data.map Char.toLower⟩

/-- Python `sub in s` substring containment. -/
def pyContainsSub (s sub : String) : Bool :=
  (List.range (s.data.length + 1)).any (fun i => sub.data.isPrefixOf (s.data.drop i))

/-- Python `c in s` for a single character. -/
def pyHasChar (s : String) (c : Char) : Bool :=
  s.data.contains c

/-- Python `s[:n]`. -/
def pyTake (s : String) (n : Nat) : String :=
  ⟨s.data.take n⟩

/-- Python `s.startswith(p)` for a one-character argument. -/
def pyStartsWithChar (s : String) (c : Char) : Bool :=
  match s.data with
  | [] => false
  | d :: _ => d = c

/-- Python `s[0].isalnum()` on a string known to be non-empty; false on the
empty string (the source only reaches it behind a non-blank guard). -/
def pyFirstIsAlnum (s : String) : Bool :=
  match s.data with
  | [] => false
  | c :: _ => c.isAlphanum

/-! ## Uniform result rows and the search-output parsers -/

/-- One parsed search-result row as rendered by the per-backend
`format_search_results` printers: package name, version, origin (repo, or
remote/branch for flatpak) and the installed marker. -/
structure ResultRow where
  name : String
  version : String
  origin : String
  installed : Bool
  deriving Repr, DecidableEq

/-- One line of `AptManager.format_search_results` (src/pm/apt.py): skips
blank lines, indented lines, lines with a colon in the first ten
characters, and lines with neither a slash nor an alphanumeric first
character; otherwise splits `pkg/repo version arch [flags]` and marks the
row installed when `[installed` occurs after the first space. -/
def aptParseLine (line : String) : Option ResultRow :=
  if pyStrip line = "" then none
  else if pyStartsWithChar line ' ' || pyHasChar (pyTake line 10) ':'
      || (!pyHasChar line '/' && !pyFirstIsAlnum line) then none
  else
    let parts := pySplitOnce ' ' line
    let pkgRepo := pyStrip (parts.getD 0 "")
    let pr :=
      if pyHasChar pkgRepo '/' then pySplitOnce '/' pkgRepo
      else [pkgRepo, ""]
    let pkg := pr.getD 0 ""
    let repo := pr.getD 1 ""
    let remaining := if parts.length > 1 then pyStrip (parts.getD 1 "") else ""
    let version := (pySplit ' ' remaining).getD 0 ""
    let isInstalled := pyContainsSub remaining "[installed"
    some ⟨pkg, version, repo, isInstalled⟩

/-- `AptManager.format_search_results` over whole stripped output. -/
def aptFormatSearchResults (output : String) : List ResultRow :=
  (pySplit '\n' (pyStrip output)).filterMap aptParseLine

/-- One line of `FlatpakManager.format_search_results` (src/pm/flatpak.py):
tab-delimited fields name, description, app-id, version, branch, remote;
a line with at least five fields yields a row whose origin is
`remote ++ "/" ++ branch` (missing remote defaults to the empty string)
and whose installed flag tests app-id membership in the installed set; a
single-field non-blank line is echoed verbatim by the source and yields
no structured row. -/
def flatpakParseLine (installedFlatpaks : List String) (line : String) :
    Option ResultRow :=
  if pyStrip line = "" then none
  else
    let parts := pySplit '\t' line
    if parts.length ≥ 5 then
      let name := parts.getD 0 ""
      let appId := if parts.length > 2 then parts.getD 2 "" else ""
      let version := if parts.length > 3 then parts.getD 3 "" else ""
      let branch := if parts.length > 4 then parts.getD 4 "" else ""
      let remote := if parts.length > 5 then parts.getD 5 "" else ""
      let isInstalled := installedFlatpaks.contains appId
      some ⟨name, version, remote ++ "/" ++ branch, isInstalled⟩
    else none

/-- `FlatpakManager.format_search_results` over whole stripped output. -/
def flatpakFormatSearchResults (output : String)
    (installedFlatpaks : List String) : List ResultRow :=
  (pySplit '\n' (pyStrip output)).filterMap (flatpakParseLine installedFlatpaks)

/-- `FlatpakManager.get_installed_flatpaks` output parsing: app-id is the
second tab-delimited field of every `flatpak list` line with at least
three fields. -/
def parseInstalledFlatpaks (output : String) : List String :=
  (pySplit '\n' (pyStrip output)).filterMap (fun line =>
    let parts := pySplit '\t' line
    if parts.length ≥ 3 then some (parts.getD 1 "") else none)

/-! ## Backend registry and dispatcher state -/

/-- Registry insertion order of the five backends, from
`PackageManager.__init__` in src/derpkg.py. -/
def managerNames : List String := ["pacman", "apt", "zypper", "flatpak", "yay"]

/-- Per-backend command tables, transcribed from src/pm/pacman.py,
src/pm/apt.py, src/pm/zypper.py, src/pm/flatpak.py and src/pm/yay.py.
Unlisted keys (never consulted by the dispatcher) give the empty argv. -/
def commandTable : String → String → List String
  | "pacman", "search" => ["pacman", "-Ss"]
  | "pacman", "install" => ["pacman", "-S"]
  | "pacman", "update" => ["pacman", "-Syu"]
  | "pacman", "remove" => ["pacman", "-Rs"]
  | "apt", "search" => ["apt", "search"]
  | "apt", "install" => ["apt", "install"]
  | "apt", "update" => ["bash", "-c", "apt update && apt upgrade"]
  | "apt", "remove" => ["apt", "autoremove", "--purge"]
  | "zypper", "search" => ["zypper", "search", "-s"]
  | "zypper", "install" => ["zypper", "install"]
  | "zypper", "update" => ["zypper", "dup"]
  | "zypper", "remove" => ["zypper", "remove", "--clean-deps"]
  | "flatpak", "search" => ["flatpak", "search"]
  | "flatpak", "install" => ["flatpak", "install", "flathub"]
  | "flatpak", "update" => ["flatpak", "update"]
  | "flatpak", "remove" => ["flatpak", "uninstall"]
  | "flatpak", "cleanup" => ["flatpak", "uninstall", "--unused"]
  | "yay", "search" => ["yay", "-Ss"]
  | "yay", "install" => ["yay", "-S"]
  | "yay", "update" => ["yay", "-Syu"]
  | "yay", "remove" => ["yay", "-Rs"]
  | _, _ => []

/-- The dispatcher state: the AvailabilitySet as the ordered list of
detected backend names (the command tables are recovered through
`commandTable`). -/
structure PackageManager where
  available_managers : List String
  deriving Repr, DecidableEq

/-- `PackageManager.__init__` followed by `_detect_package_managers`: keep
the registry entries whose availability probe succeeded, in registry
order. -/
def PackageManager.detect (isAvail : String → Bool) : PackageManager :=
  ⟨managerNames.filter isAvail⟩

/-- `self.system_managers`: the available backends other than flatpak and
yay, in detection order. -/
def PackageManager.system_managers (pm : PackageManager) : List String :=
  pm.available_managers.filter (fun k => !(k == "flatpak" || k == "yay"))

/-- The `self.lowercase_managers` dict lookup: Python builds
`name.lower() -> name` where later entries overwrite earlier ones, so the
lookup returns the last matching name. -/
def PackageManager.lowercaseLookup (pm : PackageManager) (key : String) :
    Option String :=
  pm.available_managers.reverse.find? (fun name => pyLower name == key)

/-- `PackageManager._normalize_source`: a falsy source (absent or the
empty string) gives None; otherwise a case-insensitive lookup returns the
canonical name when found and the input unchanged when not. -/
def PackageManager.normalize_source (pm : PackageManager)
    (source : Option String) : Option String :=
  match source with
  | none => none
  | some s =>
    if s = "" then none
    else
      match pm.lowercaseLookup (pyLower s) with
      | some canonical => some canonical
      | none => some s

/-! ## Event traces for the dispatcher -/

/-- Observable effects of one dispatcher run: an interactive prompt with
the raw response typed by the user (none models end-of-input or an
interrupt), a spawned subprocess with its full argv and exit code, and
error or warning reports.  Informational prints (headers, steps, success
notices) are presentation only and are not modelled. -/
inductive Event where
  | prompt (actionType manager : String) (response : Option String)
  | run (cmd : List String) (code : Int)
  | errorMsg (text : String)
  | warningMsg (text : String)
  deriving Repr, DecidableEq

/-- The external world: whether the process already runs elevated, the
availability probe outcome per backend, the raw interactive answer per
(action, manager) prompt, and the exit code and captured stdout per
spawned argv. -/
structure Env where
  sudoActive : Bool
  isAvail : String → Bool
  userInput : String → String → Option String
  exec : List String → Int
  execOut : List String → String

/-- The full subprocess argv of every run event of a trace, in order. -/
def runCmds (trace : List Event) : List (List String) :=
  trace.filterMap (fun e =>
    match e with
    | Event.run c _ => some c
    | _ => none)

/-- The prompt events of a trace, in order. -/
def promptEvents (trace : List Event) : List Event :=
  trace.filter (fun e =>
    match e with
    | Event.prompt _ _ _ => true
    | _ => false)

/-- Whether a trace reports at least one error. -/
def hasError (trace : List Event) : Bool :=
  trace.any (fun e =>
    match e with
    | Event.errorMsg _ => true
    | _ => false)

/-- The yes-answers accepted by `_ask_manager_preference`: the lowered,
stripped response must be `y` or `yes`, so anything else — in particular
the empty default — declines. -/
def answerIsYes (response : String) : Bool :=
  let r := pyStrip (pyLower response)
  r == "y" || r == "yes"

/-- `PackageManager._ask_manager_preference`: false without a prompt when
the manager is unavailable, true without a prompt when no system backend
exists, otherwise an interactive yes/no question whose interrupt or
end-of-input is treated as a decline with a cancellation warning. -/
def askManagerPreference (env : Env) (pm : PackageManager)
    (actionType manager : String) : Bool × List Event :=
  if manager ∈ pm.available_managers then
    if pm.system_managers = [] then (true, [])
    else
      match env.userInput actionType manager with
      | some response =>
          (answerIsYes response, [Event.prompt actionType manager (some response)])
      | none =>
          (false, [Event.prompt actionType manager none,
                   Event.warningMsg "Operation cancelled by user"])
  else (false, [])

/-- `PackageManager._validate_packages`: an empty list, or a first entry
that strips to the empty string, fails with an error.  (Entries are
modelled as strings; the isinstance branch is unreachable from the CLI.) -/
def validatePackages (packages : List String) : Bool × List Event :=
  if packages = [] then (false, [Event.errorMsg "No packages specified"])
  else
    match packages.find? (fun pkg => pyStrip pkg == "") with
    | some pkg => (false, [Event.errorMsg ("Invalid package name: " ++ pkg)])
    | none => (true, [])

/-! ## Dispatcher operations (src/derpkg.py) -/

/-- `PackageManager.install`: validate, normalize the source, then either
use the explicit backend (flatpak hard-codes the flathub remote and runs
unelevated, yay runs unelevated, system backends get a sudo prefix) or
prompt for flatpak and then for yay and fall back to the first system
backend. -/
def installOp (env : Env) (pm : PackageManager)
    (packages : List String) (source : Option String) : List Event :=
  let v := validatePackages packages
  if !v.1 then v.2
  else
    match pm.normalize_source source with
    | some src =>
      if src ∈ pm.available_managers then
        if src = "flatpak" then
          let cmd := ["flatpak", "install", "flathub"] ++ packages
          [Event.run cmd (env.exec cmd)]
        else
          let cmd0 := commandTable src "install" ++ packages
          let cmd := if src = "yay" then cmd0 else "sudo" :: cmd0
          [Event.run cmd (env.exec cmd)]
      else
        [Event.errorMsg ("Package manager " ++ src ++ " not found or not available")]
    | none =>
      let fp := askManagerPreference env pm "install" "flatpak"
      let yy := askManagerPreference env pm "install" "yay"
      let pre := fp.2 ++ yy.2
      if fp.1 then
        let cmd := ["flatpak", "install", "flathub"] ++ packages
        pre ++ [Event.run cmd (env.exec cmd)]
      else if yy.1 then
        let cmd := commandTable "yay" "install" ++ packages
        pre ++ [Event.run cmd (env.exec cmd)]
      else
        match pm.system_managers with
        | m :: _ =>
          let cmd := "sudo" :: (commandTable m "install" ++ packages)
          pre ++ [Event.run cmd (env.exec cmd)]
        | [] => pre ++ [Event.warningMsg "No native package managers available"]

/-- `PackageManager.remove`: same selection policy as install; a flatpak
removal that exits 0 is followed by the cleanup-of-unused-runtimes
command, and a failed one is not. -/
def removeOp (env : Env) (pm : PackageManager)
    (packages : List String) (source : Option String) : List Event :=
  let v := validatePackages packages
  if !v.1 then v.2
  else
    match pm.normalize_source source with
    | some src =>
      if src ∈ pm.available_managers then
        if src = "flatpak" then
          let cmd := ["flatpak", "uninstall"] ++ packages
          let code := env.exec cmd
          if code = 0 then
            let cleanupCmd := commandTable "flatpak" "cleanup"
            [Event.run cmd code, Event.run cleanupCmd (env.exec cleanupCmd)]
          else [Event.run cmd code]
        else
          let cmd0 := commandTable src "remove" ++ packages
          let cmd := if src = "yay" then cmd0 else "sudo" :: cmd0
          [Event.run cmd (env.exec cmd)]
      else
        [Event.errorMsg ("Package manager " ++ src ++ " not found or not available")]
    | none =>
      let fp := askManagerPreference env pm "remove" "flatpak"
      let yy := askManagerPreference env pm "remove" "yay"
      let pre := fp.2 ++ yy.2
      if fp.1 then
        let cmd := ["flatpak", "uninstall"] ++ packages
        let code := env.exec cmd
        if code = 0 then
          let cleanupCmd := commandTable "flatpak" "cleanup"
          pre ++ [Event.run cmd code, Event.run cleanupCmd (env.exec cleanupCmd)]
        else pre ++ [Event.run cmd code]
      else if yy.1 then
        let cmd := commandTable "yay" "remove" ++ packages
        pre ++ [Event.run cmd (env.exec cmd)]
      else
        match pm.system_managers with
        | m :: _ =>
          let cmd := "sudo" :: (commandTable m "remove" ++ packages)
          pre ++ [Event.run cmd (env.exec cmd)]
        | [] => pre ++ [Event.warningMsg "No native package managers available"]

/-- `PackageManager.update`: ask for flatpak and then for yay, update every
system backend in detection order with sudo (continuing past failures),
then run the yay and flatpak updates unelevated when included. -/
def updateOp (env : Env) (pm : PackageManager) : List Event :=
  let fp := askManagerPreference env pm "update" "flatpak"
  let yy := askManagerPreference env pm "update" "yay"
  let sysEvents := pm.system_managers.map (fun m =>
    let cmd := "sudo" :: commandTable m "update"
    Event.run cmd (env.exec cmd))
  let yayEvents :=
    if yy.1 then
      if "yay" ∈ pm.available_managers then
        let cmd := commandTable "yay" "update"
        [Event.run cmd (env.exec cmd)]
      else []
    else []
  let fpEvents :=
    if fp.1 then
      if "flatpak" ∈ pm.available_managers then
        let cmd := commandTable "flatpak" "update"
        [Event.run cmd (env.exec cmd)]
      else []
    else []
  fp.2 ++ yy.2 ++ sysEvents ++ yayEvents ++ fpEvents

/-- `PackageManager._search_in_manager`: build the search argv (sudo for
system backends only), run it without raising, and report a failing exit
code or empty output; the result formatting is display only. -/
def searchInManager (env : Env) (manager : String)
    (packages : List String) : List Event :=
  let cmd := commandTable manager "search" ++ packages
  let fullCmd :=
    if manager = "flatpak" || manager = "yay" then cmd else "sudo" :: cmd
  let code := env.exec fullCmd
  if code ≠ 0 then
    [Event.run fullCmd code, Event.errorMsg "Search failed"]
  else if pyStrip (env.execOut fullCmd) = "" then
    [Event.run fullCmd code, Event.warningMsg "No packages found"]
  else [Event.run fullCmd code]

/-- `PackageManager.search`: validate and normalize; an explicit flatpak
or yay source forces that manager, an absent source prompts for each
available alternative; `flatpak list` enumerates installed app ids before
any flatpak search; a valid explicit source searches only that backend
and otherwise every system backend is searched, then yay, then flatpak. -/
def searchOp (env : Env) (pm : PackageManager)
    (packages : List String) (source : Option String) : List Event :=
  let v := validatePackages packages
  if !v.1 then v.2
  else
    let src := pm.normalize_source source
    let fpAsk :=
      if src = some "flatpak" then (true, [])
      else if src = none ∧ "flatpak" ∈ pm.available_managers then
        askManagerPreference env pm "search" "flatpak"
      else (false, [])
    let yyAsk :=
      if src = some "yay" then (true, [])
      else if src = none ∧ "yay" ∈ pm.available_managers then
        askManagerPreference env pm "search" "yay"
      else (false, [])
    let listEvents :=
      if fpAsk.1 then
        if "flatpak" ∈ pm.available_managers then
          [Event.run ["flatpak", "list"] (env.exec ["flatpak", "list"])]
        else []
      else []
    let multi :=
      pm.system_managers.flatMap (fun m => searchInManager env m packages)
      ++ (if yyAsk.1 then
            if "yay" ∈ pm.available_managers then
              searchInManager env "yay" packages
            else []
          else [])
      ++ (if fpAsk.1 then
            if "flatpak" ∈ pm.available_managers then
              searchInManager env "flatpak" packages
            else []
          else [])
    let body :=
      match src with
      | some s =>
        if s ∈ pm.available_managers then searchInManager env s packages
        else multi
      | none => multi
    fpAsk.2 ++ yyAsk.2 ++ listEvents ++ body

/-! ## Entry point (main in src/derpkg.py) -/

/-- The parsed CLI action (the argparse group is mutually exclusive and
required). -/
inductive CliAction where
  | update
  | install
  | remove
  | search
  | list
  deriving Repr, DecidableEq

/-- The parsed CLI arguments. -/
structure Args where
  action : CliAction
  source : Option String
  packages : List String
  deriving Repr, DecidableEq

/-- The per-action dispatch of main after the source check: install,
remove and search fail with exit code 1 when no package was given, and
otherwise main returns 0 whatever the operation reported. -/
def dispatch (env : Env) (pm : PackageManager) (args : Args)
    (source : Option String) : Nat × List Event :=
  match args.action with
  | CliAction.update => (0, updateOp env pm)
  | CliAction.install =>
    if args.packages = [] then
      (1, [Event.errorMsg "No packages specified for installation"])
    else (0, installOp env pm args.packages source)
  | CliAction.remove =>
    if args.packages = [] then
      (1, [Event.errorMsg "No packages specified for removal"])
    else (0, removeOp env pm args.packages source)
  | CliAction.search =>
    if args.packages = [] then
      (1, [Event.errorMsg "No packages specified for search"])
    else (0, searchOp env pm args.packages source)
  | CliAction.list => (0, [])

/-- `main`: refuse to run elevated, detect backends, validate a non-empty
explicit source against the AvailabilitySet before any operation (exit 1
on failure), then dispatch; the list action only prints.  The top-level
interrupt path (exit 130) is outside this synchronous model. -/
def mainRun (env : Env) (args : Args) : Nat × List Event :=
  if env.sudoActive then
    (1, [Event.errorMsg "This program should not be run with sudo privileges.",
         Event.errorMsg "Sudo will be called automatically when needed."])
  else
    let pm := PackageManager.detect env.isAvail
    match args.source with
    | none => dispatch env pm args none
    | some s =>
      if s = "" then dispatch env pm args (some s)
      else
        match pm.normalize_source (some s) with
        | some ns =>
          if ns ∈ pm.available_managers then dispatch env pm args (some ns)
          else
            (1, [Event.errorMsg
                   ("Package manager " ++ s ++ " not found or not available")])
        | none =>
          (1, [Event.errorMsg
                 ("Package manager " ++ s ++ " not found or not available")])

/-- Whether the explicit-source validation step of main passes (or is
skipped because no truthy source was given). -/
def sourceAccepted (pm : PackageManager) (source : Option String) : Bool :=
  match source with
  | none => true
  | some s =>
    if s = "" then true
    else
      match pm.normalize_source (some s) with
      | some ns => ns ∈ pm.available_managers
      | none => false

/-- The system-backend binaries that may legitimately follow a sudo: the
three system package managers plus bash, which carries the chained apt
update command. -/
def sysBinaries : List String := ["pacman", "apt", "zypper", "bash"]

/-- The sudo discipline for one spawned argv: a sudo-prefixed system
binary, or an unelevated flatpak or yay invocation. -/
def elevationOk (cmd : List String) : Bool :=
  match cmd with
  | "sudo" :: b :: _ => sysBinaries.contains b
  | b :: _ => b == "flatpak" || b == "yay"
  | [] => false

/-! ## Helper lemmas -/

theorem detect_available_subset (f : String → Bool) :
    (PackageManager.detect f).available_managers ⊆ managerNames := by
  intro x hx
  simp only [PackageManager.detect] at hx
  exact (List.mem_filter.mp hx).1

theorem mem_managerNames_cases (m : String) (h : m ∈ managerNames) :
    m = "pacman" ∨ m = "apt" ∨ m = "zypper" ∨ m = "flatpak" ∨ m = "yay" := by
  simpa [managerNames] using h

theorem lowercaseLookup_some {pm : PackageManager} {key c : String}
    (h : pm.lowercaseLookup key = some c) :
    c ∈ pm.available_managers ∧ pyLower c = key := by
  unfold PackageManager.lowercaseLookup at h
  have hp := List.find?_some h
  exact ⟨List.mem_reverse.mp (List.mem_of_find?_eq_some h), by simpa using hp⟩

theorem pyLower_eq_empty {s : String} (h : pyLower s = "") : s = "" := by
  unfold pyLower at h
  have hd : s.data.map Char.toLower = [] := by
    have := congrArg String.data h
    simpa using this
  have : s.data = [] := by simpa using hd
  cases s
  simp_all

theorem runCmds_append (a b : List Event) :
    runCmds (a ++ b) = runCmds a ++ runCmds b := by
  simp [runCmds]

theorem runCmds_ask (env : Env) (pm : PackageManager) (a m : String) :
    runCmds (askManagerPreference env pm a m).2 = [] := by
  unfold askManagerPreference
  split
  · split
    · rfl
    · cases env.userInput a m <;> rfl
  · rfl

theorem validate_fail_events (p : List String)
    (h : (validatePackages p).1 = false) :
    runCmds (validatePackages p).2 = [] ∧
      hasError (validatePackages p).2 = true := by
  unfold validatePackages at *
  by_cases hp : p = []
  · simp [hp, runCmds, hasError]
  · simp only [hp, if_neg] at *
    rcases hf : p.find? (fun pkg => pyStrip pkg == "") with _ | pkg
    · simp [hf] at h
    · simp [hf, runCmds, hasError]

theorem normalize_source_idem (pm : PackageManager) (z : Option String) :
    pm.normalize_source (pm.normalize_source z) = pm.normalize_source z := by
  rcases z with _ | x
  · rfl
  · unfold PackageManager.normalize_source
    by_cases hx : x = ""
    · simp [hx]
    · simp only [hx, if_neg, ite_false]
      rcases hl : pm.lowercaseLookup (pyLower x) with _ | c
      · simp [hx, hl]
      · have hc := lowercaseLookup_some hl
        have hcne : c ≠ "" := by
          intro hce
          apply hx
          apply pyLower_eq_empty
          rw [← hc.2, hce]
          decide
        simp only [hcne, if_neg, ite_false]
        rw [hc.2, hl]

/-- Claim C8: parsing the apt search line
`vim/stable 2:8.2.0-1 amd64 [installed,automatic]` yields exactly one row
with name vim, version 2:8.2.0-1, origin stable and installed true. -/
theorem c8_apt_parse_example :
    aptFormatSearchResults "vim/stable 2:8.2.0-1 amd64 [installed,automatic]" =
      [⟨"vim", "2:8.2.0-1", "stable", true⟩] := by decide

/-- Claim C9: parsing the flatpak tab-delimited search row for GIMP against
the installed set containing org.gimp.GIMP yields exactly one row with
name GIMP, version 2.10, origin flathub/stable and installed true. -/
theorem c9_flatpak_parse_example :
    flatpakFormatSearchResults
        "GIMP\tImage editor\torg.gimp.GIMP\t2.10\tstable\tflathub"
        ["org.gimp.GIMP"] =
      [⟨"GIMP", "2.10", "flathub/stable", true⟩] := by decide

/-- Claim C10: a non-blank row with exactly five tab-separated fields is
accepted rather than rejected; the missing remote field defaults to the
empty string, so the rendered origin is a slash followed by the branch. -/
theorem c10_flatpak_five_fields (installed : List String)
    (n d a v b line : String)
    (hsplit : pySplit '\t' line = [n, d, a, v, b])
    (hnb : pyStrip line ≠ "") :
    flatpakParseLine installed line =
      some ⟨n, v, "/" ++ b, installed.contains a⟩ := by
  unfold flatpakParseLine
  rw [hsplit]
  simp [hnb]

/-- Witness for C10 at the concrete five-field GIMP row. -/
theorem c10_flatpak_five_fields_witness :
    pySplit '\t' "GIMP\tImage editor\torg.gimp.GIMP\t2.10\tstable" =
        ["GIMP", "Image editor", "org.gimp.GIMP", "2.10", "stable"] ∧
    pyStrip "GIMP\tImage editor\torg.gimp.GIMP\t2.10\tstable" ≠ "" ∧
    flatpakParseLine [] "GIMP\tImage editor\torg.gimp.GIMP\t2.10\tstable" =
      some ⟨"GIMP", "2.10", "/stable", false⟩ :=
  ⟨by decide, by decide,
    c10_flatpak_five_fields [] "GIMP" "Image editor" "org.gimp.GIMP" "2.10"
      "stable" "GIMP\tImage editor\torg.gimp.GIMP\t2.10\tstable"
      (by decide) (by decide)⟩

/-- Claim C7 counterexample: the empty string matches no available backend
yet is not returned unchanged — `_normalize_source` maps every falsy
source, including the empty string, to None. -/
theorem c7_counterexample :
    (PackageManager.detect (fun _ => true)).lowercaseLookup (pyLower "") = none ∧
    (PackageManager.detect (fun _ => true)).normalize_source (some "") ≠ some "" := by
  decide

/-- Claim C7 (amended): normalizeSource is idempotent, and case-insensitive
in the sense that two inputs with the same lowering normalize to the same
canonical key whenever that lowering is in the lowercase index; a
non-empty input matching no available backend is returned unchanged,
while the empty (falsy) input normalizes to None rather than to itself. -/
theorem c7_normalize_source (f : String → Bool) (x y c : String) :
    (∀ z : Option String,
      (PackageManager.detect f).normalize_source
          ((PackageManager.detect f).normalize_source z) =
        (PackageManager.detect f).normalize_source z) ∧
    (pyLower x = pyLower y →
      (PackageManager.detect f).lowercaseLookup (pyLower x) = some c →
      (PackageManager.detect f).normalize_source (some x) = some c ∧
      (PackageManager.detect f).normalize_source (some y) = some c) ∧
    (x ≠ "" →
      (PackageManager.detect f).lowercaseLookup (pyLower x) = none →
      (PackageManager.detect f).normalize_source (some x) = some x) ∧
    (PackageManager.detect f).normalize_source (some "") = none := by
  refine ⟨fun z => normalize_source_idem _ z, ?_, ?_, rfl⟩
  · intro hxy hlk
    have hc := lowercaseLookup_some hlk
    have hcm : c ∈ managerNames := detect_available_subset f hc.1
    have hcne : c ≠ "" := by
      intro hce
      subst hce
      exact absurd hcm (by decide)
    have hxne : x ≠ "" := by
      intro hxe
      apply hcne
      apply pyLower_eq_empty
      rw [hc.2, hxe]
      decide
    have hyne : y ≠ "" := by
      intro hye
      apply hcne
      apply pyLower_eq_empty
      rw [hc.2, hxy, hye]
      decide
    constructor
    · unfold PackageManager.normalize_source
      simp [hxne, hlk]
    · have hlky : (PackageManager.detect f).lowercaseLookup (pyLower y) =
          some c := by
        rw [← hxy]
        exact hlk
      unfold PackageManager.normalize_source
      simp [hyne, hlky]
  · intro hne hlk
    unfold PackageManager.normalize_source
    simp [hne, hlk]

/-- Witness for C7 at PACMAN versus pacman with every backend available. -/
theorem c7_normalize_source_witness :
    pyLower "PACMAN" = pyLower "pacman" ∧
    (PackageManager.detect (fun _ => true)).lowercaseLookup
        (pyLower "PACMAN") = some "pacman" ∧
    (PackageManager.detect (fun _ => true)).normalize_source
        (some "PACMAN") = some "pacman" ∧
    (PackageManager.detect (fun _ => true)).normalize_source
        (some "pacman") = some "pacman" :=
  ⟨by decide, by decide,
    ((c7_normalize_source (fun _ => true) "PACMAN" "pacman" "pacman").2.1
        (by decide) (by decide)).1,
    ((c7_normalize_source (fun _ => true) "PACMAN" "pacman" "pacman").2.1
        (by decide) (by decide)).2⟩

/-- Claim C2: an explicit source whose normalization is not a key of the
AvailabilitySet makes the tool report an error, spawn zero subprocesses
and exit with the failure code 1, for every operation. -/
theorem c2_invalid_source (env : Env) (args : Args) (s ns : String)
    (hsudo : env.sudoActive = false)
    (hs : args.source = some s) (hne : s ≠ "")
    (hnorm : (PackageManager.detect env.isAvail).normalize_source (some s) =
      some ns)
    (hinv : ns ∉ (PackageManager.detect env.isAvail).available_managers) :
    (mainRun env args).1 = 1 ∧ runCmds (mainRun env args).2 = [] ∧
      hasError (mainRun env args).2 = true := by
  unfold mainRun
  rw [hsudo, hs]
  simp [hne, hnorm, hinv, runCmds, hasError]

/-- Witness for C2: source guix on a host with no available backends,
asking for an install of vim. -/
theorem c2_invalid_source_witness :
    (mainRun ⟨false, fun _ => false, fun _ _ => none, fun _ => 0, fun _ => ""⟩
        ⟨CliAction.install, some "guix", ["vim"]⟩).1 = 1 ∧
    runCmds (mainRun ⟨false, fun _ => false, fun _ _ => none, fun _ => 0,
        fun _ => ""⟩ ⟨CliAction.install, some "guix", ["vim"]⟩).2 = [] ∧
    hasError (mainRun ⟨false, fun _ => false, fun _ _ => none, fun _ => 0,
        fun _ => ""⟩ ⟨CliAction.install, some "guix", ["vim"]⟩).2 = true :=
  c2_invalid_source ⟨false, fun _ => false, fun _ _ => none, fun _ => 0,
      fun _ => ""⟩ ⟨CliAction.install, some "guix", ["vim"]⟩ "guix" "guix"
    rfl rfl (by decide) (by decide) (by decide)

theorem op_validation_fail (env : Env) (pm : PackageManager)
    (packages : List String) (source : Option String)
    (hval : (validatePackages packages).1 = false) :
    installOp env pm packages source = (validatePackages packages).2 ∧
    removeOp env pm packages source = (validatePackages packages).2 ∧
    searchOp env pm packages source = (validatePackages packages).2 := by
  refine ⟨?_, ?_, ?_⟩
  · unfold installOp
    simp [hval]
  · unfold removeOp
    simp [hval]
  · unfold searchOp
    simp [hval]

theorem dispatch_validation_fail (env : Env) (pm : PackageManager)
    (args : Args) (source : Option String)
    (hact : args.action = CliAction.install ∨ args.action = CliAction.remove ∨
      args.action = CliAction.search)
    (hval : (validatePackages args.packages).1 = false) :
    runCmds (dispatch env pm args source).2 = [] ∧
    hasError (dispatch env pm args source).2 = true ∧
    (dispatch env pm args source).1 = (if args.packages = [] then 1 else 0) := by
  obtain ⟨hv1, hv2⟩ := validate_fail_events args.packages hval
  obtain ⟨ho1, ho2, ho3⟩ := op_validation_fail env pm args.packages source hval
  by_cases hp : args.packages = []
  · rcases hact with h | h | h <;>
      · unfold dispatch
        rw [h]
        simp [hp, runCmds, hasError]
  · rcases hact with h | h | h
    · unfold dispatch
      rw [h]
      simp only [if_neg hp]
      rw [ho1]
      exact ⟨hv1, hv2, trivial⟩
    · unfold dispatch
      rw [h]
      simp only [if_neg hp]
      rw [ho2]
      exact ⟨hv1, hv2, trivial⟩
    · unfold dispatch
      rw [h]
      simp only [if_neg hp]
      rw [ho3]
      exact ⟨hv1, hv2, trivial⟩

/-- Claim C3 counterexample: install with the all-whitespace package list
consisting of a single space reports a validation failure and spawns no
subprocess, but the process exits 0, not 1. -/
theorem c3_counterexample :
    (mainRun ⟨false, fun _ => true, fun _ _ => some "", fun _ => 0, fun _ => ""⟩
        ⟨CliAction.install, none, [" "]⟩).1 = 0 ∧
    (mainRun ⟨false, fun _ => true, fun _ _ => some "", fun _ => 0, fun _ => ""⟩
        ⟨CliAction.install, none, [" "]⟩).1 ≠ 1 ∧
    runCmds (mainRun ⟨false, fun _ => true, fun _ _ => some "", fun _ => 0,
        fun _ => ""⟩ ⟨CliAction.install, none, [" "]⟩).2 = [] ∧
    hasError (mainRun ⟨false, fun _ => true, fun _ _ => some "", fun _ => 0,
        fun _ => ""⟩ ⟨CliAction.install, none, [" "]⟩).2 = true := by
  decide

/-- Claim C3 (amended): for search, install and remove, a package list that
is empty or contains an all-whitespace entry leads to zero subprocess
invocations and a reported validation failure; the process exits 1 when
the list is empty (or when the explicit source also fails validation),
but exits 0 when a non-empty list is rejected inside the operation. -/
theorem c3_package_validation (env : Env) (args : Args)
    (hsudo : env.sudoActive = false)
    (hact : args.action = CliAction.install ∨ args.action = CliAction.remove ∨
      args.action = CliAction.search)
    (hval : (validatePackages args.packages).1 = false) :
    runCmds (mainRun env args).2 = [] ∧
    hasError (mainRun env args).2 = true ∧
    (mainRun env args).1 =
      (if args.packages = [] then 1
       else if sourceAccepted (PackageManager.detect env.isAvail) args.source
         then 0 else 1) := by
  unfold mainRun
  rw [hsudo]
  simp only [Bool.false_eq_true, if_false, ite_false]
  rcases hsrc : args.source with _ | s
  · have hd := dispatch_validation_fail env (PackageManager.detect env.isAvail)
      args none hact hval
    simpa [sourceAccepted] using hd
  · by_cases hse : s = ""
    · subst hse
      have hd := dispatch_validation_fail env (PackageManager.detect env.isAvail)
        args (some "") hact hval
      simpa [sourceAccepted] using hd
    · rcases hn : (PackageManager.detect env.isAvail).normalize_source (some s)
        with _ | ns
      · simp [hse, hn, sourceAccepted, runCmds, hasError]
      · by_cases hmem : ns ∈ (PackageManager.detect env.isAvail).available_managers
        · have hd := dispatch_validation_fail env
            (PackageManager.detect env.isAvail) args (some ns) hact hval
          simp only [hse, if_neg, ite_false, hn, hmem, if_pos, ite_true]
          refine ⟨hd.1, hd.2.1, ?_⟩
          rw [hd.2.2]
          simp [sourceAccepted, hse, hn, hmem]
        · simp [hse, hn, hmem, sourceAccepted, runCmds, hasError]

/-- Witness for C3 at the empty package list for a remove. -/
theorem c3_package_validation_witness :
    (validatePackages ([] : List String)).1 = false ∧
    runCmds (mainRun ⟨false, fun _ => true, fun _ _ => some "", fun _ => 0,
        fun _ => ""⟩ ⟨CliAction.remove, none, []⟩).2 = [] ∧
    hasError (mainRun ⟨false, fun _ => true, fun _ _ => some "", fun _ => 0,
        fun _ => ""⟩ ⟨CliAction.remove, none, []⟩).2 = true ∧
    (mainRun ⟨false, fun _ => true, fun _ _ => some "", fun _ => 0,
        fun _ => ""⟩ ⟨CliAction.remove, none, []⟩).1 = 1 := by
  have h := c3_package_validation
    ⟨false, fun _ => true, fun _ _ => some "", fun _ => 0, fun _ => ""⟩
    ⟨CliAction.remove, none, []⟩ rfl (Or.inr (Or.inl rfl)) (by decide)
  exact ⟨by decide, h.1, h.2.1, by simpa using h.2.2⟩

theorem runCmds_nil : runCmds [] = [] := rfl

theorem runCmds_cons_run (c : List String) (k : Int) (tr : List Event) :
    runCmds (Event.run c k :: tr) = c :: runCmds tr := rfl

theorem runCmds_cons_prompt (a m : String) (r : Option String) (tr : List Event) :
    runCmds (Event.prompt a m r :: tr) = runCmds tr := rfl

theorem runCmds_cons_error (t : String) (tr : List Event) :
    runCmds (Event.errorMsg t :: tr) = runCmds tr := rfl

theorem runCmds_cons_warning (t : String) (tr : List Event) :
    runCmds (Event.warningMsg t :: tr) = runCmds tr := rfl

theorem lookup_canonical (f : String → Bool) (m : String)
    (hav : m ∈ (PackageManager.detect f).available_managers)
    (hlow : pyLower m = m) :
    (PackageManager.detect f).lowercaseLookup m = some m := by
  have hsome : ((PackageManager.detect f).available_managers.reverse.find?
      (fun name => pyLower name == m)).isSome := by
    rw [List.find?_isSome]
    exact ⟨m, List.mem_reverse.mpr hav, by simp [hlow]⟩
  unfold PackageManager.lowercaseLookup
  rcases ho : (PackageManager.detect f).available_managers.reverse.find?
      (fun name => pyLower name == m) with _ | c
  · rw [ho] at hsome
    simp at hsome
  · have hc : c ∈ (PackageManager.detect f).available_managers ∧ pyLower c = m :=
      lowercaseLookup_some (by
        unfold PackageManager.lowercaseLookup
        exact ho)
    have hcm : c ∈ managerNames := detect_available_subset f hc.1
    have : c = m := by
      rcases mem_managerNames_cases c hcm with h | h | h | h | h <;>
        · subst h
          rw [← hc.2]
          decide
    rw [this]

theorem normalize_canonical (f : String → Bool) (m : String)
    (hav : m ∈ (PackageManager.detect f).available_managers)
    (hlow : pyLower m = m) :
    (PackageManager.detect f).normalize_source (some m) = some m := by
  have hm : m ∈ managerNames := detect_available_subset f hav
  have hne : m ≠ "" := by
    intro he
    subst he
    exact absurd hm (by decide)
  unfold PackageManager.normalize_source
  simp [hne, hlow, lookup_canonical f m hav hlow]

/-- Claim C4: a flatpak remove whose uninstall exits 0 is followed by
exactly the one cleanup-of-unused-runtimes invocation, and by none when
the uninstall exits non-zero — both with flatpak as the explicit source
and when flatpak was chosen through the interactive prompt. -/
theorem c4_flatpak_cleanup (env : Env) (packages : List String)
    (hval : (validatePackages packages).1 = true)
    (hfp : "flatpak" ∈ (PackageManager.detect env.isAvail).available_managers) :
    (runCmds (removeOp env (PackageManager.detect env.isAvail) packages
        (some "flatpak")) =
      [["flatpak", "uninstall"] ++ packages] ++
        (if env.exec (["flatpak", "uninstall"] ++ packages) = 0
         then [["flatpak", "uninstall", "--unused"]] else [])) ∧
    ((askManagerPreference env (PackageManager.detect env.isAvail)
        "remove" "flatpak").1 = true →
      runCmds (removeOp env (PackageManager.detect env.isAvail) packages none) =
        [["flatpak", "uninstall"] ++ packages] ++
          (if env.exec (["flatpak", "uninstall"] ++ packages) = 0
           then [["flatpak", "uninstall", "--unused"]] else [])) := by
  have hnorm : (PackageManager.detect env.isAvail).normalize_source
      (some "flatpak") = some "flatpak" :=
    normalize_canonical env.isAvail "flatpak" hfp (by decide)
  constructor
  · unfold removeOp
    rw [hnorm]
    simp only [hval, Bool.not_true, Bool.false_eq_true, if_false, ite_false,
      if_pos hfp, ite_true, if_pos rfl]
    by_cases hc : env.exec (["flatpak", "uninstall"] ++ packages) = 0
    · rw [if_pos hc, if_pos hc]
      simp only [runCmds_cons_run, runCmds_nil]
      rfl
    · rw [if_neg hc, if_neg hc]
      simp only [runCmds_cons_run, runCmds_nil, List.append_nil]
  · intro hacc
    unfold removeOp
    have hask := runCmds_ask env (PackageManager.detect env.isAvail)
      "remove" "flatpak"
    have hask2 := runCmds_ask env (PackageManager.detect env.isAvail)
      "remove" "yay"
    simp only [hval, Bool.not_true, Bool.false_eq_true, if_false, ite_false,
      hacc, ite_true, PackageManager.normalize_source]
    by_cases hc : env.exec (["flatpak", "uninstall"] ++ packages) = 0
    · simp only [if_pos hc, runCmds_append, hask, hask2, runCmds_cons_run,
        runCmds_nil, List.nil_append]
      rfl
    · simp only [if_neg hc, runCmds_append, hask, hask2, runCmds_cons_run,
        runCmds_nil, List.nil_append, List.append_nil]

/-- Witness for C4: flatpak available with yay, uninstall of package x
succeeding, both with explicit source and after an accepted prompt. -/
theorem c4_flatpak_cleanup_witness :
    (validatePackages ["x"]).1 = true ∧
    "flatpak" ∈ (PackageManager.detect (fun m => m == "flatpak" ||
        m == "pacman")).available_managers ∧
    (runCmds (removeOp ⟨false, fun m => m == "flatpak" || m == "pacman",
        fun _ _ => some "y", fun _ => 0, fun _ => ""⟩
        (PackageManager.detect (fun m => m == "flatpak" || m == "pacman"))
        ["x"] (some "flatpak")) =
      [["flatpak", "uninstall", "x"], ["flatpak", "uninstall", "--unused"]]) := by
  have h := c4_flatpak_cleanup
    ⟨false, fun m => m == "flatpak" || m == "pacman",
      fun _ _ => some "y", fun _ => 0, fun _ => ""⟩
    ["x"] (by decide) (by decide)
  exact ⟨by decide, by decide, h.1⟩

theorem promptEvents_append (a b : List Event) :
    promptEvents (a ++ b) = promptEvents a ++ promptEvents b := by
  simp [promptEvents]

theorem promptEvents_ask_shape (env : Env) (pm : PackageManager) (a m : String)
    (hmem : m ∈ pm.available_managers) (hsys : pm.system_managers ≠ []) :
    promptEvents (askManagerPreference env pm a m).2 =
      [Event.prompt a m (env.userInput a m)] := by
  unfold askManagerPreference
  rw [if_pos hmem, if_neg hsys]
  cases env.userInput a m <;> rfl

theorem ask_accept_needs_yes (env : Env) (pm : PackageManager) (a m : String)
    (hsys : pm.system_managers ≠ [])
    (hacc : (askManagerPreference env pm a m).1 = true) :
    ∃ r, env.userInput a m = some r ∧ answerIsYes r = true := by
  unfold askManagerPreference at hacc
  by_cases hm : m ∈ pm.available_managers
  · rw [if_pos hm, if_neg hsys] at hacc
    rcases hi : env.userInput a m with _ | r
    · rw [hi] at hacc
      simp at hacc
    · rw [hi] at hacc
      exact ⟨r, rfl, hacc⟩
  · rw [if_neg hm] at hacc
    simp at hacc

theorem installOp_none_shape (env : Env) (pm : PackageManager)
    (packages : List String) (hval : (validatePackages packages).1 = true) :
    ∃ tail, installOp env pm packages none =
        ((askManagerPreference env pm "install" "flatpak").2 ++
          (askManagerPreference env pm "install" "yay").2) ++ tail ∧
      promptEvents tail = [] := by
  unfold installOp
  simp only [hval, Bool.not_true, Bool.false_eq_true, if_false, ite_false,
    PackageManager.normalize_source]
  by_cases hf : (askManagerPreference env pm "install" "flatpak").1 = true
  · simp only [if_pos hf]
    exact ⟨_, rfl, rfl⟩
  · simp only [if_neg hf]
    by_cases hy : (askManagerPreference env pm "install" "yay").1 = true
    · simp only [if_pos hy]
      exact ⟨_, rfl, rfl⟩
    · simp only [if_neg hy]
      rcases hs : pm.system_managers with _ | ⟨m, rest⟩ <;> simp only [hs]
      · exact ⟨_, rfl, rfl⟩
      · exact ⟨_, rfl, rfl⟩

theorem removeOp_none_shape (env : Env) (pm : PackageManager)
    (packages : List String) (hval : (validatePackages packages).1 = true) :
    ∃ tail, removeOp env pm packages none =
        ((askManagerPreference env pm "remove" "flatpak").2 ++
          (askManagerPreference env pm "remove" "yay").2) ++ tail ∧
      promptEvents tail = [] := by
  unfold removeOp
  simp only [hval, Bool.not_true, Bool.false_eq_true, if_false, ite_false,
    PackageManager.normalize_source]
  by_cases hf : (askManagerPreference env pm "remove" "flatpak").1 = true
  · simp only [if_pos hf]
    by_cases hc : env.exec (["flatpak", "uninstall"] ++ packages) = 0
    · simp only [if_pos hc]
      exact ⟨_, rfl, rfl⟩
    · simp only [if_neg hc]
      exact ⟨_, rfl, rfl⟩
  · simp only [if_neg hf]
    by_cases hy : (askManagerPreference env pm "remove" "yay").1 = true
    · simp only [if_pos hy]
      exact ⟨_, rfl, rfl⟩
    · simp only [if_neg hy]
      rcases hs : pm.system_managers with _ | ⟨m, rest⟩ <;> simp only [hs]
      · exact ⟨_, rfl, rfl⟩
      · exact ⟨_, rfl, rfl⟩

theorem ask_no_system (env : Env) (pm : PackageManager) (a m : String)
    (hs : pm.system_managers = []) :
    (askManagerPreference env pm a m).2 = [] := by
  unfold askManagerPreference
  by_cases hm : m ∈ pm.available_managers
  · rw [if_pos hm, if_pos hs]
  · rw [if_neg hm]

theorem ask_no_system_true (env : Env) (pm : PackageManager) (a m : String)
    (hm : m ∈ pm.available_managers) (hs : pm.system_managers = []) :
    (askManagerPreference env pm a m).1 = true := by
  unfold askManagerPreference
  rw [if_pos hm, if_pos hs]

theorem ask_unavailable (env : Env) (pm : PackageManager) (a m : String)
    (hm : m ∉ pm.available_managers) :
    askManagerPreference env pm a m = (false, []) := by
  unfold askManagerPreference
  rw [if_neg hm]

theorem installOp_runCmds_flatpak (env : Env) (pm : PackageManager)
    (packages : List String) (hval : (validatePackages packages).1 = true)
    (hf : (askManagerPreference env pm "install" "flatpak").1 = true) :
    runCmds (installOp env pm packages none) =
      [["flatpak", "install", "flathub"] ++ packages] := by
  unfold installOp
  simp only [hval, Bool.not_true, Bool.false_eq_true, if_false, ite_false,
    PackageManager.normalize_source, if_pos hf]
  simp only [runCmds_append, runCmds_ask, runCmds_cons_run, runCmds_nil,
    List.nil_append, List.append_nil]

theorem installOp_runCmds_yay (env : Env) (pm : PackageManager)
    (packages : List String) (hval : (validatePackages packages).1 = true)
    (hf : ¬(askManagerPreference env pm "install" "flatpak").1 = true)
    (hy : (askManagerPreference env pm "install" "yay").1 = true) :
    runCmds (installOp env pm packages none) =
      [commandTable "yay" "install" ++ packages] := by
  unfold installOp
  simp only [hval, Bool.not_true, Bool.false_eq_true, if_false, ite_false,
    PackageManager.normalize_source, if_neg hf, if_pos hy]
  simp only [runCmds_append, runCmds_ask, runCmds_cons_run, runCmds_nil,
    List.nil_append, List.append_nil]

theorem installOp_runCmds_system (env : Env) (pm : PackageManager)
    (packages : List String) (m : String) (rest : List String)
    (hval : (validatePackages packages).1 = true)
    (hf : ¬(askManagerPreference env pm "install" "flatpak").1 = true)
    (hy : ¬(askManagerPreference env pm "install" "yay").1 = true)
    (hs : pm.system_managers = m :: rest) :
    runCmds (installOp env pm packages none) =
      ["sudo" :: (commandTable m "install" ++ packages)] := by
  unfold installOp
  simp only [hval, Bool.not_true, Bool.false_eq_true, if_false, ite_false,
    PackageManager.normalize_source, if_neg hf, if_neg hy, hs]
  simp only [runCmds_append, runCmds_ask, runCmds_cons_run, runCmds_nil,
    List.nil_append, List.append_nil]

theorem removeOp_runCmds_flatpak_head (env : Env) (pm : PackageManager)
    (packages : List String) (hval : (validatePackages packages).1 = true)
    (hf : (askManagerPreference env pm "remove" "flatpak").1 = true) :
    (runCmds (removeOp env pm packages none)).head? =
      some (["flatpak", "uninstall"] ++ packages) := by
  unfold removeOp
  simp only [hval, Bool.not_true, Bool.false_eq_true, if_false, ite_false,
    PackageManager.normalize_source, if_pos hf]
  by_cases hc : env.exec (["flatpak", "uninstall"] ++ packages) = 0
  · simp only [if_pos hc, runCmds_append, runCmds_ask, runCmds_cons_run,
      runCmds_nil, List.nil_append, List.append_nil]
    rfl
  · simp only [if_neg hc, runCmds_append, runCmds_ask, runCmds_cons_run,
      runCmds_nil, List.nil_append, List.append_nil]
    rfl

theorem removeOp_runCmds_yay (env : Env) (pm : PackageManager)
    (packages : List String) (hval : (validatePackages packages).1 = true)
    (hf : ¬(askManagerPreference env pm "remove" "flatpak").1 = true)
    (hy : (askManagerPreference env pm "remove" "yay").1 = true) :
    runCmds (removeOp env pm packages none) =
      [commandTable "yay" "remove" ++ packages] := by
  unfold removeOp
  simp only [hval, Bool.not_true, Bool.false_eq_true, if_false, ite_false,
    PackageManager.normalize_source, if_neg hf, if_pos hy]
  simp only [runCmds_append, runCmds_ask, runCmds_cons_run, runCmds_nil,
    List.nil_append, List.append_nil]

theorem removeOp_runCmds_system (env : Env) (pm : PackageManager)
    (packages : List String) (m : String) (rest : List String)
    (hval : (validatePackages packages).1 = true)
    (hf : ¬(askManagerPreference env pm "remove" "flatpak").1 = true)
    (hy : ¬(askManagerPreference env pm "remove" "yay").1 = true)
    (hs : pm.system_managers = m :: rest) :
    runCmds (removeOp env pm packages none) =
      ["sudo" :: (commandTable m "remove" ++ packages)] := by
  unfold removeOp
  simp only [hval, Bool.not_true, Bool.false_eq_true, if_false, ite_false,
    PackageManager.normalize_source, if_neg hf, if_neg hy, hs]
  simp only [runCmds_append, runCmds_ask, runCmds_cons_run, runCmds_nil,
    List.nil_append, List.append_nil]

/-- Claim C1 counterexample: with pacman, flatpak and yay available and the
flatpak install question answered yes, the dispatcher still shows the yay
question before installing from flatpak — asking for yay is not
conditional on declining flatpak as the claim states. -/
theorem c1_counterexample :
    installOp
        ⟨false, fun m => m == "pacman" || m == "flatpak" || m == "yay",
          fun _ mg => some (if mg == "flatpak" then "y" else ""),
          fun _ => 0, fun _ => ""⟩
        (PackageManager.detect
          (fun m => m == "pacman" || m == "flatpak" || m == "yay"))
        ["firefox"] none =
      [Event.prompt "install" "flatpak" (some "y"),
       Event.prompt "install" "yay" (some ""),
       Event.run ["flatpak", "install", "flathub", "firefox"] 0] := by
  decide

/-- Claim C1 (amended): for install and remove with no explicit source and a
valid package list, the dispatcher asks the flatpak question and then
always also asks the yay question (each only when that manager is
available and some system backend exists) — the yay question is shown
regardless of the flatpak answer; both prompts accept only an explicit
interactive yes, so the default is no; flatpak is used when its prompt
was accepted, otherwise yay when accepted, otherwise the first available
system backend in detection order; and when no system backend exists the
prompts are skipped and flatpak (if available, else yay) is used without
asking. -/
theorem c1_selection (env : Env) (pm : PackageManager)
    (packages : List String)
    (hval : (validatePackages packages).1 = true) :
    (promptEvents (installOp env pm packages none) =
      promptEvents (askManagerPreference env pm "install" "flatpak").2 ++
        promptEvents (askManagerPreference env pm "install" "yay").2) ∧
    (promptEvents (removeOp env pm packages none) =
      promptEvents (askManagerPreference env pm "remove" "flatpak").2 ++
        promptEvents (askManagerPreference env pm "remove" "yay").2) ∧
    (∀ a m, m ∈ pm.available_managers → pm.system_managers ≠ [] →
      promptEvents (askManagerPreference env pm a m).2 =
        [Event.prompt a m (env.userInput a m)]) ∧
    (∀ a m, m ∉ pm.available_managers →
      askManagerPreference env pm a m = (false, [])) ∧
    (∀ a m, pm.system_managers ≠ [] →
      (askManagerPreference env pm a m).1 = true →
      ∃ r, env.userInput a m = some r ∧ answerIsYes r = true) ∧
    ((askManagerPreference env pm "install" "flatpak").1 = true →
      runCmds (installOp env pm packages none) =
        [["flatpak", "install", "flathub"] ++ packages]) ∧
    ((askManagerPreference env pm "install" "flatpak").1 ≠ true →
      (askManagerPreference env pm "install" "yay").1 = true →
      runCmds (installOp env pm packages none) =
        [commandTable "yay" "install" ++ packages]) ∧
    (∀ m rest, (askManagerPreference env pm "install" "flatpak").1 ≠ true →
      (askManagerPreference env pm "install" "yay").1 ≠ true →
      pm.system_managers = m :: rest →
      runCmds (installOp env pm packages none) =
        ["sudo" :: (commandTable m "install" ++ packages)]) ∧
    ((askManagerPreference env pm "remove" "flatpak").1 = true →
      (runCmds (removeOp env pm packages none)).head? =
        some (["flatpak", "uninstall"] ++ packages)) ∧
    ((askManagerPreference env pm "remove" "flatpak").1 ≠ true →
      (askManagerPreference env pm "remove" "yay").1 = true →
      runCmds (removeOp env pm packages none) =
        [commandTable "yay" "remove" ++ packages]) ∧
    (∀ m rest, (askManagerPreference env pm "remove" "flatpak").1 ≠ true →
      (askManagerPreference env pm "remove" "yay").1 ≠ true →
      pm.system_managers = m :: rest →
      runCmds (removeOp env pm packages none) =
        ["sudo" :: (commandTable m "remove" ++ packages)]) ∧
    (pm.system_managers = [] →
      promptEvents (installOp env pm packages none) = [] ∧
      promptEvents (removeOp env pm packages none) = [] ∧
      ("flatpak" ∈ pm.available_managers →
        runCmds (installOp env pm packages none) =
          [["flatpak", "install", "flathub"] ++ packages]) ∧
      ("flatpak" ∉ pm.available_managers → "yay" ∈ pm.available_managers →
        runCmds (installOp env pm packages none) =
          [commandTable "yay" "install" ++ packages])) := by
  obtain ⟨tailI, heqI, hptI⟩ := installOp_none_shape env pm packages hval
  obtain ⟨tailR, heqR, hptR⟩ := removeOp_none_shape env pm packages hval
  have hpi : promptEvents (installOp env pm packages none) =
      promptEvents (askManagerPreference env pm "install" "flatpak").2 ++
        promptEvents (askManagerPreference env pm "install" "yay").2 := by
    rw [heqI, promptEvents_append, promptEvents_append, hptI, List.append_nil]
  have hpr : promptEvents (removeOp env pm packages none) =
      promptEvents (askManagerPreference env pm "remove" "flatpak").2 ++
        promptEvents (askManagerPreference env pm "remove" "yay").2 := by
    rw [heqR, promptEvents_append, promptEvents_append, hptR, List.append_nil]
  refine ⟨hpi, hpr,
    fun a m hm hs => promptEvents_ask_shape env pm a m hm hs,
    fun a m hm => ask_unavailable env pm a m hm,
    fun a m hs hacc => ask_accept_needs_yes env pm a m hs hacc,
    fun hf => installOp_runCmds_flatpak env pm packages hval hf,
    fun hf hy => installOp_runCmds_yay env pm packages hval hf hy,
    fun m rest hf hy hs =>
      installOp_runCmds_system env pm packages m rest hval hf hy hs,
    fun hf => removeOp_runCmds_flatpak_head env pm packages hval hf,
    fun hf hy => removeOp_runCmds_yay env pm packages hval hf hy,
    fun m rest hf hy hs =>
      removeOp_runCmds_system env pm packages m rest hval hf hy hs,
    fun hs => ⟨?_, ?_, ?_, ?_⟩⟩
  · rw [hpi, ask_no_system env pm "install" "flatpak" hs,
      ask_no_system env pm "install" "yay" hs]
    rfl
  · rw [hpr, ask_no_system env pm "remove" "flatpak" hs,
      ask_no_system env pm "remove" "yay" hs]
    rfl
  · intro hfp
    exact installOp_runCmds_flatpak env pm packages hval
      (ask_no_system_true env pm "install" "flatpak" hfp hs)
  · intro hfp hyay
    have hf : ¬(askManagerPreference env pm "install" "flatpak").1 = true := by
      rw [ask_unavailable env pm "install" "flatpak" hfp]
      simp
    exact installOp_runCmds_yay env pm packages hval hf
      (ask_no_system_true env pm "install" "yay" hyay hs)

/-- Witness for C1: pacman, flatpak and yay available, flatpak answered no
and yay answered yes, so the install runs through yay. -/
theorem c1_selection_witness :
    (validatePackages ["firefox"]).1 = true ∧
    (askManagerPreference
        ⟨false, fun m => m == "pacman" || m == "flatpak" || m == "yay",
          fun _ mg => some (if mg == "yay" then "yes" else ""),
          fun _ => 0, fun _ => ""⟩
        (PackageManager.detect
          (fun m => m == "pacman" || m == "flatpak" || m == "yay"))
        "install" "flatpak").1 ≠ true ∧
    runCmds (installOp
        ⟨false, fun m => m == "pacman" || m == "flatpak" || m == "yay",
          fun _ mg => some (if mg == "yay" then "yes" else ""),
          fun _ => 0, fun _ => ""⟩
        (PackageManager.detect
          (fun m => m == "pacman" || m == "flatpak" || m == "yay"))
        ["firefox"] none) = [["yay", "-S", "firefox"]] := by
  refine ⟨by decide, by decide, ?_⟩
  have h := (c1_selection
    ⟨false, fun m => m == "pacman" || m == "flatpak" || m == "yay",
      fun _ mg => some (if mg == "yay" then "yes" else ""),
      fun _ => 0, fun _ => ""⟩
    (PackageManager.detect
      (fun m => m == "pacman" || m == "flatpak" || m == "yay"))
    ["firefox"] (by decide)).2.2.2.2.2.2.1 (by decide) (by decide)
  exact h

theorem ask_accept_of_yes (env : Env) (pm : PackageManager) (a m : String)
    (hm : m ∈ pm.available_managers) (r : String)
    (hi : env.userInput a m = some r) (hr : answerIsYes r = true) :
    (askManagerPreference env pm a m).1 = true := by
  unfold askManagerPreference
  rw [if_pos hm]
  by_cases hs : pm.system_managers = []
  · rw [if_pos hs]
  · rw [if_neg hs, hi]
    exact hr

theorem runCmds_map_update (env : Env) (l : List String) :
    runCmds (l.map (fun m => Event.run ("sudo" :: commandTable m "update")
      (env.exec ("sudo" :: commandTable m "update")))) =
      l.map (fun m => "sudo" :: commandTable m "update") := by
  induction l with
  | nil => rfl
  | cons x xs ih => simp only [List.map_cons, runCmds_cons_run, ih]

theorem runCmds_if_seg (b : Bool) (p : Prop) [Decidable p]
    (c : List String) (k : Int) :
    runCmds (if b = true then (if p then [Event.run c k] else []) else []) =
      (if b = true ∧ p then [c] else []) := by
  by_cases hb : b = true <;> by_cases hp : p <;> simp [hb, hp, runCmds]

theorem ct_yay_update : commandTable "yay" "update" = ["yay", "-Syu"] := rfl

theorem ct_flatpak_update :
    commandTable "flatpak" "update" = ["flatpak", "update"] := rfl

theorem updateOp_runCmds (env : Env) (pm : PackageManager) :
    runCmds (updateOp env pm) =
      pm.system_managers.map (fun m => "sudo" :: commandTable m "update")
        ++ ((if (askManagerPreference env pm "update" "yay").1 = true ∧
              "yay" ∈ pm.available_managers
            then [commandTable "yay" "update"] else [])
        ++ (if (askManagerPreference env pm "update" "flatpak").1 = true ∧
              "flatpak" ∈ pm.available_managers
            then [commandTable "flatpak" "update"] else [])) := by
  unfold updateOp
  simp only [runCmds_append, runCmds_ask, List.nil_append, runCmds_map_update,
    runCmds_if_seg, List.append_assoc]

/-- Claim C5 counterexample: with only flatpak available, the update runs
the flatpak update without showing any interactive prompt, so it is not
conditional on a prompt answered yes. -/
theorem c5_counterexample :
    updateOp ⟨false, fun m => m == "flatpak", fun _ _ => none,
        fun _ => 0, fun _ => ""⟩
      (PackageManager.detect (fun m => m == "flatpak")) =
      [Event.run ["flatpak", "update"] 0] ∧
    promptEvents (updateOp ⟨false, fun m => m == "flatpak", fun _ _ => none,
        fun _ => 0, fun _ => ""⟩
      (PackageManager.detect (fun m => m == "flatpak"))) = [] := by
  decide

/-- Claim C5 (amended): update runs the sudo-prefixed update command of
every detected system backend exactly once in detection order (the
command list is exactly the map over the duplicate-free system list,
whatever the exit codes), followed by the yay update and then the flatpak
update exactly when they were included; when at least one system backend
exists, the yay and flatpak updates run if and only if that manager is
available and its prompt was answered yes, while with no system backend
they run without any prompt. -/
theorem c5_update (env : Env) (pm : PackageManager) :
    (runCmds (updateOp env pm) =
      pm.system_managers.map (fun m => "sudo" :: commandTable m "update")
        ++ ((if (askManagerPreference env pm "update" "yay").1 = true ∧
              "yay" ∈ pm.available_managers
            then [commandTable "yay" "update"] else [])
        ++ (if (askManagerPreference env pm "update" "flatpak").1 = true ∧
              "flatpak" ∈ pm.available_managers
            then [commandTable "flatpak" "update"] else []))) ∧
    (∀ f, pm = PackageManager.detect f → pm.system_managers.Nodup) ∧
    (pm.system_managers ≠ [] →
      ((commandTable "yay" "update" ∈ runCmds (updateOp env pm)) ↔
        ("yay" ∈ pm.available_managers ∧
          ∃ r, env.userInput "update" "yay" = some r ∧
            answerIsYes r = true)) ∧
      ((commandTable "flatpak" "update" ∈ runCmds (updateOp env pm)) ↔
        ("flatpak" ∈ pm.available_managers ∧
          ∃ r, env.userInput "update" "flatpak" = some r ∧
            answerIsYes r = true))) := by
  have heq := updateOp_runCmds env pm
  refine ⟨heq, ?_, ?_⟩
  · intro f hpm
    subst hpm
    exact ((by decide : managerNames.Nodup).filter _).filter _
  · intro hsys
    constructor
    · constructor
      · intro h
        rw [heq] at h
        rcases List.mem_append.mp h with h1 | h2
        · exfalso
          obtain ⟨m', _, heq'⟩ := List.mem_map.mp h1
          rw [ct_yay_update] at heq'
          have := congrArg List.head? heq'
          simp at this
        · rcases List.mem_append.mp h2 with hy | hf
          · by_cases hcond : (askManagerPreference env pm "update" "yay").1 =
                true ∧ "yay" ∈ pm.available_managers
            · exact ⟨hcond.2,
                ask_accept_needs_yes env pm "update" "yay" hsys hcond.1⟩
            · rw [if_neg hcond] at hy
              simp at hy
          · by_cases hcond : (askManagerPreference env pm "update"
                "flatpak").1 = true ∧ "flatpak" ∈ pm.available_managers
            · rw [if_pos hcond, ct_yay_update, ct_flatpak_update] at hf
              simp at hf
            · rw [if_neg hcond] at hf
              simp at hf
      · rintro ⟨hmem, r, hi, hr⟩
        have h1 := ask_accept_of_yes env pm "update" "yay" hmem r hi hr
        rw [heq]
        refine List.mem_append.mpr (Or.inr (List.mem_append.mpr (Or.inl ?_)))
        rw [if_pos ⟨h1, hmem⟩]
        simp
    · constructor
      · intro h
        rw [heq] at h
        rcases List.mem_append.mp h with h1 | h2
        · exfalso
          obtain ⟨m', _, heq'⟩ := List.mem_map.mp h1
          rw [ct_flatpak_update] at heq'
          have := congrArg List.head? heq'
          simp at this
        · rcases List.mem_append.mp h2 with hy | hf
          · by_cases hcond : (askManagerPreference env pm "update" "yay").1 =
                true ∧ "yay" ∈ pm.available_managers
            · rw [if_pos hcond, ct_yay_update, ct_flatpak_update] at hy
              simp at hy
            · rw [if_neg hcond] at hy
              simp at hy
          · by_cases hcond : (askManagerPreference env pm "update"
                "flatpak").1 = true ∧ "flatpak" ∈ pm.available_managers
            · exact ⟨hcond.2,
                ask_accept_needs_yes env pm "update" "flatpak" hsys hcond.1⟩
            · rw [if_neg hcond] at hf
              simp at hf
      · rintro ⟨hmem, r, hi, hr⟩
        have h1 := ask_accept_of_yes env pm "update" "flatpak" hmem r hi hr
        rw [heq]
        refine List.mem_append.mpr (Or.inr (List.mem_append.mpr (Or.inr ?_)))
        rw [if_pos ⟨h1, hmem⟩]
        simp

/-- Witness for C5: all backends available, the yay prompt answered y and
the flatpak prompt answered n, so the yay update is among the commands. -/
theorem c5_update_witness :
    (PackageManager.detect (fun _ => true)).system_managers ≠ [] ∧
    commandTable "yay" "update" ∈ runCmds (updateOp
      ⟨false, fun _ => true,
        fun _ m => some (if m == "yay" then "y" else "n"),
        fun _ => 0, fun _ => ""⟩
      (PackageManager.detect (fun _ => true))) :=
  ⟨by decide,
    (((c5_update ⟨false, fun _ => true,
          fun _ m => some (if m == "yay" then "y" else "n"),
          fun _ => 0, fun _ => ""⟩
        (PackageManager.detect (fun _ => true))).2.2
      (by decide)).1).mpr ⟨by decide, "y", by decide, by decide⟩⟩

theorem mem_system_managers {pm : PackageManager} {m : String}
    (h : m ∈ pm.system_managers) :
    m ∈ pm.available_managers ∧ m ≠ "flatpak" ∧ m ≠ "yay" := by
  unfold PackageManager.system_managers at h
  have h2 := List.mem_filter.mp h
  have hb := h2.2
  simp only [Bool.not_eq_true', Bool.or_eq_false_iff, beq_eq_false_iff_ne] at hb
  exact ⟨h2.1, hb.1, hb.2⟩

theorem system_manager_three {pm : PackageManager} {m : String}
    (hsub : pm.available_managers ⊆ managerNames)
    (h : m ∈ pm.system_managers) :
    m = "pacman" ∨ m = "apt" ∨ m = "zypper" := by
  obtain ⟨hav, hnf, hny⟩ := mem_system_managers h
  rcases mem_managerNames_cases m (hsub hav) with h1 | h1 | h1 | h1 | h1
  · exact Or.inl h1
  · exact Or.inr (Or.inl h1)
  · exact Or.inr (Or.inr h1)
  · exact absurd h1 hnf
  · exact absurd h1 hny

theorem elevationOk_sudo_cmd (m op : String)
    (h3 : m = "pacman" ∨ m = "apt" ∨ m = "zypper")
    (hop : op = "search" ∨ op = "install" ∨ op = "remove")
    (tail : List String) :
    elevationOk ("sudo" :: (commandTable m op ++ tail)) = true := by
  rcases h3 with h | h | h <;> rcases hop with o | o | o <;> subst h <;>
    subst o <;> rfl

theorem elevationOk_sudo_update (m : String)
    (h3 : m = "pacman" ∨ m = "apt" ∨ m = "zypper") :
    elevationOk ("sudo" :: commandTable m "update") = true := by
  rcases h3 with h | h | h <;> subst h <;> rfl

theorem installOp_elevation (env : Env) (pm : PackageManager)
    (packages : List String) (source : Option String)
    (hsub : pm.available_managers ⊆ managerNames) :
    (runCmds (installOp env pm packages source)).all elevationOk = true := by
  cases hval : (validatePackages packages).1 with
  | false =>
    rw [(op_validation_fail env pm packages source hval).1,
      (validate_fail_events packages hval).1]
    rfl
  | true =>
    unfold installOp
    simp only [hval, Bool.not_true, Bool.false_eq_true, if_false, ite_false]
    rcases hn : pm.normalize_source source with _ | src
    · by_cases hf : (askManagerPreference env pm "install" "flatpak").1 = true
      · simp only [if_pos hf, runCmds_append, runCmds_ask, List.nil_append,
          runCmds_cons_run, runCmds_nil, List.append_nil]
        rfl
      · simp only [if_neg hf]
        by_cases hy : (askManagerPreference env pm "install" "yay").1 = true
        · simp only [if_pos hy, runCmds_append, runCmds_ask, List.nil_append,
            runCmds_cons_run, runCmds_nil, List.append_nil]
          rfl
        · simp only [if_neg hy]
          rcases hs : pm.system_managers with _ | ⟨m, rest⟩
          · simp only [runCmds_append, runCmds_ask, List.nil_append]
            rfl
          · simp only [runCmds_append, runCmds_ask, List.nil_append,
              runCmds_cons_run, runCmds_nil, List.append_nil]
            have h3 := system_manager_three hsub
              (hs ▸ List.mem_cons_self m rest)
            simp only [List.all_cons, List.all_nil, Bool.and_true]
            exact elevationOk_sudo_cmd m "install" h3 (Or.inr (Or.inl rfl))
              packages
    · by_cases hmem : src ∈ pm.available_managers
      · simp only [if_pos hmem]
        by_cases hfp : src = "flatpak"
        · simp only [if_pos hfp]
          rfl
        · simp only [if_neg hfp]
          by_cases hyy : src = "yay"
          · simp only [if_pos hyy]
            subst hyy
            rfl
          · simp only [if_neg hyy]
            have h3 : src = "pacman" ∨ src = "apt" ∨ src = "zypper" := by
              rcases mem_managerNames_cases src (hsub hmem)
                with h1 | h1 | h1 | h1 | h1
              · exact Or.inl h1
              · exact Or.inr (Or.inl h1)
              · exact Or.inr (Or.inr h1)
              · exact absurd h1 hfp
              · exact absurd h1 hyy
            simp only [runCmds_cons_run, runCmds_nil, List.all_cons,
              List.all_nil, Bool.and_true]
            exact elevationOk_sudo_cmd src "install" h3 (Or.inr (Or.inl rfl))
              packages
      · simp only [if_neg hmem]
        rfl

theorem removeOp_elevation (env : Env) (pm : PackageManager)
    (packages : List String) (source : Option String)
    (hsub : pm.available_managers ⊆ managerNames) :
    (runCmds (removeOp env pm packages source)).all elevationOk = true := by
  cases hval : (validatePackages packages).1 with
  | false =>
    rw [(op_validation_fail env pm packages source hval).2.1,
      (validate_fail_events packages hval).1]
    rfl
  | true =>
    unfold removeOp
    simp only [hval, Bool.not_true, Bool.false_eq_true, if_false, ite_false]
    rcases hn : pm.normalize_source source with _ | src
    · by_cases hf : (askManagerPreference env pm "remove" "flatpak").1 = true
      · simp only [if_pos hf]
        by_cases hc : env.exec (["flatpak", "uninstall"] ++ packages) = 0
        · simp only [if_pos hc, runCmds_append, runCmds_ask, List.nil_append,
            runCmds_cons_run, runCmds_nil, List.append_nil]
          rfl
        · simp only [if_neg hc, runCmds_append, runCmds_ask, List.nil_append,
            runCmds_cons_run, runCmds_nil, List.append_nil]
          rfl
      · simp only [if_neg hf]
        by_cases hy : (askManagerPreference env pm "remove" "yay").1 = true
        · simp only [if_pos hy, runCmds_append, runCmds_ask, List.nil_append,
            runCmds_cons_run, runCmds_nil, List.append_nil]
          rfl
        · simp only [if_neg hy]
          rcases hs : pm.system_managers with _ | ⟨m, rest⟩
          · simp only [runCmds_append, runCmds_ask, List.nil_append]
            rfl
          · simp only [runCmds_append, runCmds_ask, List.nil_append,
              runCmds_cons_run, runCmds_nil, List.append_nil]
            have h3 := system_manager_three hsub
              (hs ▸ List.mem_cons_self m rest)
            simp only [List.all_cons, List.all_nil, Bool.and_true]
            exact elevationOk_sudo_cmd m "remove" h3 (Or.inr (Or.inr rfl))
              packages
    · by_cases hmem : src ∈ pm.available_managers
      · simp only [if_pos hmem]
        by_cases hfp : src = "flatpak"
        · simp only [if_pos hfp]
          by_cases hc : env.exec (["flatpak", "uninstall"] ++ packages) = 0
          · simp only [if_pos hc]
            rfl
          · simp only [if_neg hc]
            rfl
        · simp only [if_neg hfp]
          by_cases hyy : src = "yay"
          · simp only [if_pos hyy]
            subst hyy
            rfl
          · simp only [if_neg hyy]
            have h3 : src = "pacman" ∨ src = "apt" ∨ src = "zypper" := by
              rcases mem_managerNames_cases src (hsub hmem)
                with h1 | h1 | h1 | h1 | h1
              · exact Or.inl h1
              · exact Or.inr (Or.inl h1)
              · exact Or.inr (Or.inr h1)
              · exact absurd h1 hfp
              · exact absurd h1 hyy
            simp only [runCmds_cons_run, runCmds_nil, List.all_cons,
              List.all_nil, Bool.and_true]
            exact elevationOk_sudo_cmd src "remove" h3 (Or.inr (Or.inr rfl))
              packages
      · simp only [if_neg hmem]
        rfl

theorem updateOp_elevation (env : Env) (pm : PackageManager)
    (hsub : pm.available_managers ⊆ managerNames) :
    (runCmds (updateOp env pm)).all elevationOk = true := by
  rw [updateOp_runCmds, List.all_eq_true]
  intro c hc
  rcases List.mem_append.mp hc with h1 | h2
  · obtain ⟨m, hm, heq⟩ := List.mem_map.mp h1
    rw [← heq]
    exact elevationOk_sudo_update m (system_manager_three hsub hm)
  · rcases List.mem_append.mp h2 with hy | hf
    · by_cases hcond : (askManagerPreference env pm "update" "yay").1 = true ∧
          "yay" ∈ pm.available_managers
      · rw [if_pos hcond, List.mem_singleton] at hy
        subst hy
        rfl
      · rw [if_neg hcond] at hy
        simp at hy
    · by_cases hcond : (askManagerPreference env pm "update" "flatpak").1 =
          true ∧ "flatpak" ∈ pm.available_managers
      · rw [if_pos hcond, List.mem_singleton] at hf
        subst hf
        rfl
      · rw [if_neg hcond] at hf
        simp at hf

theorem searchInManager_runCmds (env : Env) (m : String)
    (packages : List String) :
    ∃ c, runCmds (searchInManager env m packages) = [c] ∧
      c = (if m = "flatpak" || m = "yay"
           then commandTable m "search" ++ packages
           else "sudo" :: (commandTable m "search" ++ packages)) := by
  unfold searchInManager
  split
  · dsimp only
    split
    · exact ⟨_, rfl, rfl⟩
    · split
      · exact ⟨_, rfl, rfl⟩
      · exact ⟨_, rfl, rfl⟩
  · dsimp only
    split
    · exact ⟨_, rfl, rfl⟩
    · split
      · exact ⟨_, rfl, rfl⟩
      · exact ⟨_, rfl, rfl⟩

theorem searchInManager_elevation (env : Env) (m : String)
    (packages : List String) (hm : m ∈ managerNames) :
    (runCmds (searchInManager env m packages)).all elevationOk = true := by
  obtain ⟨c, hc, hceq⟩ := searchInManager_runCmds env m packages
  rw [hc, List.all_cons, List.all_nil, Bool.and_true, hceq]
  rcases mem_managerNames_cases m hm with h | h | h | h | h <;> subst h <;> rfl

theorem search_flatMap_elevation (env : Env) (packages : List String)
    (l : List String) (hl : ∀ m ∈ l, m ∈ managerNames) :
    (runCmds (l.flatMap (fun m => searchInManager env m packages))).all
      elevationOk = true := by
  induction l with
  | nil => rfl
  | cons x xs ih =>
    rw [List.flatMap_cons, runCmds_append, List.all_append, Bool.and_eq_true]
    exact ⟨searchInManager_elevation env x packages
        (hl x (List.mem_cons_self x xs)),
      ih (fun m hm => hl m (List.mem_cons_of_mem x hm))⟩

theorem runCmds_searchAsk (env : Env) (pm : PackageManager)
    (src : Option String) (a m : String) :
    runCmds (if src = some m then ((true : Bool), ([] : List Event))
      else if src = none ∧ m ∈ pm.available_managers then
        askManagerPreference env pm a m
      else (false, [])).2 = [] := by
  split
  · rfl
  · split
    · exact runCmds_ask env pm a m
    · rfl

theorem search_if_block_elevation (env : Env) (pm : PackageManager)
    (packages : List String) (b : Bool) (m : String) (hm : m ∈ managerNames) :
    (runCmds (if b = true then
        (if m ∈ pm.available_managers then searchInManager env m packages
         else []) else [])).all elevationOk = true := by
  split
  · split
    · exact searchInManager_elevation env m packages hm
    · rfl
  · rfl

theorem search_multi_elevation (env : Env) (pm : PackageManager)
    (packages : List String) (b1 b2 : Bool)
    (hsub : pm.available_managers ⊆ managerNames) :
    (runCmds (pm.system_managers.flatMap
        (fun m => searchInManager env m packages)
      ++ (if b1 = true then
            (if "yay" ∈ pm.available_managers then
              searchInManager env "yay" packages else []) else [])
      ++ (if b2 = true then
            (if "flatpak" ∈ pm.available_managers then
              searchInManager env "flatpak" packages else []) else []))).all
      elevationOk = true := by
  rw [runCmds_append, runCmds_append, List.all_append, List.all_append,
    Bool.and_eq_true, Bool.and_eq_true]
  refine ⟨⟨?_, ?_⟩, ?_⟩
  · exact search_flatMap_elevation env packages pm.system_managers
      (fun m hm => hsub (mem_system_managers hm).1)
  · exact search_if_block_elevation env pm packages b1 "yay" (by decide)
  · exact search_if_block_elevation env pm packages b2 "flatpak" (by decide)

theorem all_if_singleton (p : Prop) [Decidable p] (c : List String)
    (hc : elevationOk c = true) :
    (if p then [c] else ([] : List (List String))).all elevationOk = true := by
  by_cases h : p
  · rw [if_pos h, List.all_cons, List.all_nil, Bool.and_true]
    exact hc
  · rw [if_neg h]
    rfl

theorem searchOp_elevation (env : Env) (pm : PackageManager)
    (packages : List String) (source : Option String)
    (hsub : pm.available_managers ⊆ managerNames) :
    (runCmds (searchOp env pm packages source)).all elevationOk = true := by
  cases hval : (validatePackages packages).1 with
  | false =>
    rw [(op_validation_fail env pm packages source hval).2.2,
      (validate_fail_events packages hval).1]
    rfl
  | true =>
    unfold searchOp
    simp only [hval, Bool.not_true, Bool.false_eq_true, if_false, ite_false]
    rw [runCmds_append, runCmds_append, runCmds_append, List.all_append,
      List.all_append, List.all_append, Bool.and_eq_true, Bool.and_eq_true,
      Bool.and_eq_true, runCmds_searchAsk, runCmds_searchAsk]
    refine ⟨⟨⟨rfl, rfl⟩, ?_⟩, ?_⟩
    · rw [runCmds_if_seg]
      exact all_if_singleton _ _ rfl
    · rcases hn : pm.normalize_source source with _ | s
      · exact search_multi_elevation env pm packages _ _ hsub
      · dsimp only
        by_cases hmem : s ∈ pm.available_managers
        · rw [if_pos hmem]
          exact searchInManager_elevation env s packages (hsub hmem)
        · rw [if_neg hmem]
          exact search_multi_elevation env pm packages _ _ hsub

theorem dispatch_elevation (env : Env) (pm : PackageManager)
    (act : CliAction) (src0 source : Option String) (pkgs : List String)
    (hsub : pm.available_managers ⊆ managerNames) :
    (runCmds (dispatch env pm ⟨act, src0, pkgs⟩ source).2).all elevationOk =
      true := by
  cases act with
  | update => exact updateOp_elevation env pm hsub
  | install =>
    unfold dispatch
    dsimp only
    by_cases hp : pkgs = []
    · rw [if_pos hp]
      rfl
    · rw [if_neg hp]
      exact installOp_elevation env pm pkgs source hsub
  | remove =>
    unfold dispatch
    dsimp only
    by_cases hp : pkgs = []
    · rw [if_pos hp]
      rfl
    · rw [if_neg hp]
      exact removeOp_elevation env pm pkgs source hsub
  | search =>
    unfold dispatch
    dsimp only
    by_cases hp : pkgs = []
    · rw [if_pos hp]
      rfl
    · rw [if_neg hp]
      exact searchOp_elevation env pm pkgs source hsub
  | list => rfl

/-- Claim C6: every subprocess argv spawned by any run of the tool either
is a sudo-prefixed system-backend command (pacman, apt, zypper, with the
apt update chained through bash) or is an unelevated flatpak or yay
command — across every operation including search, the flatpak list
probe and the flatpak cleanup. -/
theorem c6_elevation (env : Env) (args : Args) :
    (runCmds (mainRun env args).2).all elevationOk = true := by
  obtain ⟨act, src0, pkgs⟩ := args
  unfold mainRun
  by_cases hsud : env.sudoActive = true
  · rw [if_pos hsud]
    rfl
  · rw [if_neg hsud]
    have hsub := detect_available_subset env.isAvail
    rcases src0 with _ | s
    · dsimp only
      exact dispatch_elevation env _ act none none pkgs hsub
    · dsimp only
      by_cases hse : s = ""
      · rw [if_pos hse]
        exact dispatch_elevation env _ act (some s) (some s) pkgs hsub
      · rw [if_neg hse]
        rcases hn : (PackageManager.detect env.isAvail).normalize_source
            (some s) with _ | ns
        · rfl
        · dsimp only
          by_cases hmem : ns ∈
              (PackageManager.detect env.isAvail).available_managers
          · rw [if_pos hmem]
            exact dispatch_elevation env _ act (some s) (some ns) pkgs hsub
          · rw [if_neg hmem]
            rfl

end Derpkg
